import Mathlib

/-!
Verification of the setup-lazarus action (src/lazarus.ts) against its
specification.  The TypeScript code is shallowly embedded: the pure
helpers become Lean functions on `String`, and the effectful install
routines become functions from an explicit state and environment to the
list of external actions they perform (shell commands, downloads, PATH
changes) together with an optional fatal error message.
-/

namespace SetupLazarus

/-- Embedding of the JavaScript method `s.startsWith(p)`. -/
def jsStartsWith (s p : String) : Bool := p.data.isPrefixOf s.data

/-- Embedding of the JavaScript method `s.endsWith(p)`. -/
def jsEndsWith (s p : String) : Bool := p.data.isSuffixOf s.data

/-- Embedding of the JavaScript method `s.split("-")` on the character
list: the string is cut at every occurrence of the dash character. -/
def splitDash : List Char → List (List Char)
  | [] => [[]]
  | c :: cs =>
    let r := splitDash cs
    if c = '-' then [] :: r else (c :: r.headD []) :: r.tail

/-- Embedding of the JavaScript expression `s.split("-")`. -/
def jsSplitDash (s : String) : List String :=
  (splitDash s.data).map fun l => String.mk l

/-- Embedding of `path.join(a, b)` (the code only builds fresh paths, so
joining with a single separator models it). -/
def pathJoin (a b : String) : String := a ++ "/" ++ b

/-- Source constant `StableVersion` (src/lazarus.ts line 11). -/
def StableVersion : String := "4.2"

/-- Embedding of `findFPCVersion` (src/lazarus.ts lines 13-32). -/
def findFPCVersion (ver : String) : String :=
  if jsStartsWith ver "2.0.1" then "3.2.0"
  else if jsStartsWith ver "2.0." || jsStartsWith ver "1.8" then "3.0.4"
  else if ver == "1.6.4" then "3.0.2"
  else if jsStartsWith ver "1.6" then "3.0.0"
  else if ver == "1.2.0" || jsStartsWith ver "1.0" then "2.6.2"
  else if jsStartsWith ver "1.4" || jsStartsWith ver "1.2" then "2.6.4"
  else "3.2.2"

/-- The three artifact filenames returned by `createLazarusFileName` on
the non-Windows platforms. -/
structure ArtifactSet where
  laz : String
  fpc : String
  fpcsrc : String
deriving DecidableEq

/-- Return type of `createLazarusFileName`: a plain string on Windows,
an object with three fields elsewhere. -/
inductive LazFileName where
  | winFile (name : String)
  | files (arts : ArtifactSet)
deriving DecidableEq

/-- The `fpcverSuffix` computation on the darwin branch
(src/lazarus.ts lines 44-50). -/
def darwinSuffix (fpcver : String) : String :=
  if fpcver == "3.2.0" then "2"
  else if fpcver == "3.2.2" then "20210709"
  else ""

/-- The `fpcverSuffix` computation on the non-darwin, non-Windows branch
(src/lazarus.ts lines 51-76). -/
def debSuffix (ver fpcver : String) : String :=
  if fpcver == "3.2.2" then "210709"
  else if fpcver == "3.2.0" then "1"
  else if fpcver == "3.0.4" then "2"
  else if fpcver == "3.0.2" then "170225"
  else if fpcver == "3.0.0" then "151205"
  else if fpcver == "2.6.4" then
    (if jsStartsWith ver "1.2." && !(ver == "1.2.0") then "140420" else "150228")
  else if fpcver == "2.6.2" then "0"
  else ""

/-- Embedding of `createLazarusFileName` (src/lazarus.ts lines 34-95);
`os.platform()` and `os.arch()` are passed explicitly. -/
def createLazarusFileName (ver platform arch : String) : LazFileName :=
  let fpcver := findFPCVersion ver
  if jsStartsWith platform "win" then
    .winFile ("lazarus-" ++ ver ++ "-fpc-" ++ fpcver ++ "-" ++
      (if arch == "x64" then "win64" else "win32") ++ ".exe")
  else
    let fpcverSuffix := if platform == "darwin" then darwinSuffix fpcver else debSuffix ver fpcver
    if platform == "darwin" then
      if !(ver == "2.0.8") then
        .files
          { laz := "Lazarus-" ++ ver ++ "-macosx-" ++ platform ++ ".pkg",
            fpc := "fpc-" ++ fpcver ++ ".intel" ++
              (if jsStartsWith fpcver "2.0" then "" else "arm64") ++ "-macosx.dmg",
            fpcsrc := "fpc-src-" ++ fpcver ++ "-" ++ fpcverSuffix ++ "-laz." ++
              (if jsStartsWith ver "2.0" then "pkg" else "dmg") }
      else
        .files
          { laz := "LazarusIDE-2.0.8-macos-x86_64.pkg",
            fpc := "fpc-3.0.4-macos-x86_64-laz-2.dmg",
            fpcsrc := "fpc-src-3.0.4-laz.pkg" }
    else
      .files
        { laz := "lazarus-project_" ++ ver ++ "-0_amd64.deb",
          fpc := "fpc" ++ (if !(jsStartsWith ver "1.") then "_" else "-laz-") ++ fpcver ++
            "-" ++ (if fpcver == "3.0.4" then "1" else fpcverSuffix) ++ "_amd64.deb",
          fpcsrc := "fpc-src_" ++ fpcver ++ "-" ++ fpcverSuffix ++ "_amd64.deb" }

/-- The three artifact keys (`"laz"`, `"fpc"`, `"fpcsrc"`) used to index
the filename object in `_getPackageURL`. -/
inductive Pkg where
  | laz
  | fpc
  | fpcsrc
deriving DecidableEq

/-- Field lookup on the artifact object. -/
def ArtifactSet.get (a : ArtifactSet) : Pkg → String
  | .laz => a.laz
  | .fpc => a.fpc
  | .fpcsrc => a.fpcsrc

/-- The `as string` cast at src/lazarus.ts line 208: on the Windows code
path the value is already a string; the other constructor is never cast
there (JavaScript would stringify the object). -/
def LazFileName.asWinString : LazFileName → String
  | .winFile n => n
  | .files _ => "[object Object]"

/-- The indexing `createLazarusFileName(...)[pkg]` at src/lazarus.ts
lines 523 and 527; indexing a plain string by these keys would give
`undefined` in JavaScript, and never happens on those code paths. -/
def LazFileName.getPkg : LazFileName → Pkg → String
  | .files a, p => a.get p
  | .winFile _, _ => "undefined"

/-- The mutable fields of the `Lazarus` class together with the host
facts (`os.platform()`, `os.arch()`) and the cache flag it stores. -/
structure LazState where
  platform : String
  arch : String
  version : String
  cacheEnabled : Bool
  cacheKey : String
deriving DecidableEq

/-- External-world facts a run depends on: whether a cache restore for
the key would hit, whether the two candidate lazbuild paths exist after
a macOS install, the resolved temp directory, and the package paths the
`fs.readdirSync` scans of mounted disk images resolve to. -/
structure Env where
  cacheHit : Bool
  lazLibExists : Bool
  lazAppExists : Bool
  tempDir : String
  fpcsrcPkgPath : String
  fpcPkgPath : String
  lazPkgPath : String
deriving DecidableEq

/-- One externally visible action of a run. -/
inductive Event where
  | execCmd (cmd : String)
  | download (url dest : String)
  | restoreCall (key : String)
  | addPath (dir : String)
  | exportVar (name value : String)
  | invokeDownload (version arch platform key : String)
deriving DecidableEq

/-- Modelled from the spec: the cache module (src/cache.ts) is not among
the sources; per the spec's Cache Gate, a restore attempt succeeds only
when caching is enabled and the cache holds an entry for the key — a
cache miss and a disabled cache both count as restore failure. -/
def cacheRestore (enabled hit : Bool) : Bool := enabled && hit

/-- Embedding of the `Lazarus` constructor (src/lazarus.ts lines
103-108): it stores the version and sets the cache key to
`version-arch-platform`. -/
def Lazarus.mkState (ver : String) (withCache : Bool) (platform arch : String) : LazState :=
  { platform := platform, arch := arch, version := ver, cacheEnabled := withCache,
    cacheKey := ver ++ "-" ++ arch ++ "-" ++ platform }

/-- The version-rewriting steps at src/lazarus.ts lines 126-128 and
139-141: set the version and recompute the cache key. -/
def setVersion (s : LazState) (v : String) : LazState :=
  { s with version := v, cacheKey := v ++ "-" ++ s.arch ++ "-" ++ s.platform }

/-- Embedding of `_getPackageURL` (src/lazarus.ts lines 508-532). -/
def getPackageURL (s : LazState) (pkg : Pkg) : String :=
  if s.platform == "win32" then
    (if s.arch == "x64" then
      "https://sourceforge.net/projects/lazarus/files/Lazarus%20Windows%2064%20bits/Lazarus%20" ++
        s.version ++ "/"
     else
      "https://sourceforge.net/projects/lazarus/files/Lazarus%20Windows%2032%20bits/Lazarus%20" ++
        s.version ++ "/") ++
    (createLazarusFileName s.version s.platform s.arch).asWinString
  else if s.platform == "linux" then
    "https://sourceforge.net/projects/lazarus/files/Lazarus%20Linux%20amd64%20DEB/Lazarus%20" ++
      s.version ++ "/" ++
    (createLazarusFileName s.version s.platform s.arch).getPkg pkg
  else if s.platform == "darwin" then
    "https://sourceforge.net/projects/lazarus/files/Lazarus%20macOS%20x86-64/Lazarus%20" ++
      s.version ++ "/" ++
    (createLazarusFileName s.version s.platform s.arch).getPkg pkg
  else ""

/-- One download-or-reuse-then-apt-install step of the linux branch of
`_downloadLazarus` (e.g. src/lazarus.ts lines 234-254). -/
def linuxPkgStep (restored : Bool) (tempDir url fname : String) : List Event :=
  let dest := pathJoin tempDir fname
  (if restored then [] else [Event.download url dest]) ++
  [Event.execCmd ("sudo apt install -y " ++ dest)]

/-- One download-or-reuse-then-install step of the darwin branch of
`_downloadLazarus` (e.g. src/lazarus.ts lines 312-363): the local name
depends on whether the URL ends in ".dmg", and a dmg is mounted before
the installer runs on the package path found inside the volume. -/
def darwinPkgStep (restored : Bool) (tempDir url dmgName pkgName resolvedPkg : String) :
    List Event :=
  let dname := if jsEndsWith url ".dmg" then dmgName else pkgName
  let dest := pathJoin tempDir dname
  (if restored then [] else [Event.download url dest]) ++
  (if dname == dmgName then
    [Event.execCmd ("sudo hdiutil attach " ++ dest),
     Event.execCmd ("sudo installer -package " ++ resolvedPkg ++ " -target /")]
   else
    [Event.execCmd ("sudo installer -package " ++ dest ++ " -target /")])

/-- The lazbuild symlink fix-up ending the darwin branch of
`_downloadLazarus` (src/lazarus.ts lines 476-498). -/
def darwinSymlinkFix (env : Env) : List Event × Option String :=
  if env.lazLibExists then ([], none)
  else if env.lazAppExists then
    ([Event.execCmd "rm -rf /usr/local/bin/lazbuild",
      Event.execCmd "ln -s /Applications/Lazarus/lazbuild /usr/local/bin/lazbuild"], none)
  else
    ([], some "Could not find lazbuild in /Library/Lazarus/lazbuild or /Applications/Lazarus/lazbuild")

/-- Embedding of `Lazarus._downloadLazarus` (src/lazarus.ts lines
159-506): the returned list is the trace of external actions, the
optional string the fatal error ending the run. -/
def downloadLazarus (s : LazState) (env : Env) : List Event × Option String :=
  let restoreEvents : List Event :=
    if s.platform == "win32" then [] else [Event.restoreCall s.cacheKey]
  let cacheRestored : Bool :=
    if s.platform == "win32" then false else cacheRestore s.cacheEnabled env.cacheHit
  let pre : List Event :=
    Event.invokeDownload s.version s.arch s.platform s.cacheKey :: restoreEvents
  if s.platform == "win32" then
    let url := getPackageURL s .laz
    let dest := pathJoin env.tempDir ("lazarus-" ++ s.version ++ ".exe")
    let dEvents : List Event := if cacheRestored then [] else [Event.download url dest]
    let lazarusDir := pathJoin env.tempDir "lazarus"
    let fpcVersionPart :=
      (jsSplitDash ((createLazarusFileName s.version s.platform s.arch).asWinString)).getD 3 ""
    let fpcDir := pathJoin (pathJoin (pathJoin (pathJoin lazarusDir "fpc") fpcVersionPart) "bin")
      ("x86_64-" ++ (if s.arch == "x64" then "win64" else "win32"))
    (pre ++ dEvents ++
      [Event.execCmd (dest ++ " /VERYSILENT /SP- /DIR=" ++ lazarusDir),
       Event.addPath lazarusDir,
       Event.addPath fpcDir,
       Event.exportVar "FPCDIR" (pathJoin (pathJoin lazarusDir "fpc") fpcVersionPart)], none)
  else if s.platform == "linux" then
    (pre ++ Event.execCmd "sudo apt update" ::
      (linuxPkgStep cacheRestored env.tempDir (getPackageURL s .fpcsrc) "fpcsrc.deb" ++
       linuxPkgStep cacheRestored env.tempDir (getPackageURL s .fpc) "fpc.deb" ++
       linuxPkgStep cacheRestored env.tempDir (getPackageURL s .laz) "lazarus.deb"), none)
  else if s.platform == "darwin" then
    let steps :=
      darwinPkgStep cacheRestored env.tempDir (getPackageURL s .fpcsrc)
        "fpcsrc.dmg" "fpcsrc.pkg" env.fpcsrcPkgPath ++
      darwinPkgStep cacheRestored env.tempDir (getPackageURL s .fpc)
        "fpc.dmg" "fpc.pkg" env.fpcPkgPath ++
      darwinPkgStep cacheRestored env.tempDir (getPackageURL s .laz)
        "lazarus.dmg" "lazarus.pkg" env.lazPkgPath
    (pre ++ steps ++ (darwinSymlinkFix env).1, (darwinSymlinkFix env).2)
  else
    (pre, some ("_downloadLazarus - Platform not implemented: " ++ s.platform))

/-- Embedding of `Lazarus.installLazarus` (src/lazarus.ts lines
110-157). -/
def installLazarus (s : LazState) (env : Env) : List Event × Option String :=
  if s.version == "dist" then
    if s.platform == "linux" then
      ([Event.execCmd "sudo apt update",
        Event.execCmd "sudo apt install -y lazarus --no-install-recommends"], none)
    else if s.platform == "win32" then
      downloadLazarus (setVersion s StableVersion) env
    else
      ([], some ("getLazarus - Platform not supported: " ++ s.platform))
  else if s.version == "stable" then
    downloadLazarus (setVersion s StableVersion) env
  else if s.platform == "darwin" &&
      ((jsStartsWith s.version "2.0" && !(s.version == "2.0.8")) ||
        jsStartsWith s.version "1.") then
    ([], some "GitHub runners do not support Lazarus below 2.0.8 on macos")
  else
    downloadLazarus s env

/-- Recognizer for download events. -/
def isDownload : Event → Bool
  | .download _ _ => true
  | _ => false

/-- The download calls issued during a trace. -/
def downloadEvents (tr : List Event) : List Event := tr.filter isDownload

/-- The URLs of the download calls issued during a trace. -/
def downloadURLs (tr : List Event) : List String :=
  tr.filterMap fun e =>
    match e with
    | .download u _ => some u
    | _ => none

/-- C1: for every requested version string, `findFPCVersion` follows the
ordered prefix/equality rule table: "2.0.1" prefixes give "3.2.0";
"2.0." or "1.8" prefixes give "3.0.4"; exactly "1.6.4" gives "3.0.2";
other "1.6" prefixes give "3.0.0"; exactly "1.2.0" and "1.0" prefixes
give "2.6.2"; remaining "1.4" and "1.2" prefixes give "2.6.4" — rules
applied in priority order, so "1.2.0" yields "2.6.2", not "2.6.4". -/
theorem findFPCVersion_table (v : String) :
    (jsStartsWith v "2.0.1" = true → findFPCVersion v = "3.2.0") ∧
    (jsStartsWith v "2.0.1" = false →
      (jsStartsWith v "2.0." = true ∨ jsStartsWith v "1.8" = true) →
      findFPCVersion v = "3.0.4") ∧
    (v = "1.6.4" → findFPCVersion v = "3.0.2") ∧
    (jsStartsWith v "2.0.1" = false → jsStartsWith v "2.0." = false →
      jsStartsWith v "1.8" = false → v ≠ "1.6.4" → jsStartsWith v "1.6" = true →
      findFPCVersion v = "3.0.0") ∧
    ((v = "1.2.0" ∨
        (jsStartsWith v "2.0.1" = false ∧ jsStartsWith v "2.0." = false ∧
          jsStartsWith v "1.8" = false ∧ v ≠ "1.6.4" ∧ jsStartsWith v "1.6" = false ∧
          jsStartsWith v "1.0" = true)) →
      findFPCVersion v = "2.6.2") ∧
    (jsStartsWith v "2.0.1" = false → jsStartsWith v "2.0." = false →
      jsStartsWith v "1.8" = false → v ≠ "1.6.4" → jsStartsWith v "1.6" = false →
      v ≠ "1.2.0" → jsStartsWith v "1.0" = false →
      (jsStartsWith v "1.4" = true ∨ jsStartsWith v "1.2" = true) →
      findFPCVersion v = "2.6.4") ∧
    findFPCVersion "1.2.0" = "2.6.2" ∧ findFPCVersion "1.2.0" ≠ "2.6.4" := by
  refine ⟨?_, ?_, ?_, ?_, ?_, ?_, by decide, by decide⟩
  · intro h1
    simp [findFPCVersion, h1]
  · intro h1 h2
    rcases h2 with h2 | h2 <;> simp [findFPCVersion, h1, h2]
  · intro h
    subst h
    decide
  · intro h1 h2 h3 h4 h5
    simp [findFPCVersion, h1, h2, h3, h4, h5]
  · intro h
    rcases h with h | ⟨h1, h2, h3, h4, h5, h6⟩
    · subst h
      decide
    · simp [findFPCVersion, h1, h2, h3, h4, h5, h6]
  · intro h1 h2 h3 h4 h5 h6 h7 h8
    rcases h8 with h8 | h8 <;> simp [findFPCVersion, h1, h2, h3, h4, h5, h6, h7, h8]

/-- C1 witness: the priority-order rules evaluated at "1.2.0". -/
theorem findFPCVersion_table_witness :
    ("1.2.0" : String) = "1.2.0" ∧ findFPCVersion "1.2.0" = "2.6.2" :=
  ⟨by decide, (findFPCVersion_table "1.2.0").2.2.2.2.1 (Or.inl rfl)⟩

/-- C2: every version string matched by none of the prefix/equality
rules (the empty string included) silently falls through to the default
compiler version "3.2.2"; the function is total, so no input signals an
error. -/
theorem findFPCVersion_default (v : String)
    (h1 : jsStartsWith v "2.0.1" = false) (h2 : jsStartsWith v "2.0." = false)
    (h3 : jsStartsWith v "1.8" = false) (h4 : v ≠ "1.6.4")
    (h5 : jsStartsWith v "1.6" = false) (h6 : v ≠ "1.2.0")
    (h7 : jsStartsWith v "1.0" = false) (h8 : jsStartsWith v "1.4" = false)
    (h9 : jsStartsWith v "1.2" = false) : findFPCVersion v = "3.2.2" := by
  simp [findFPCVersion, h1, h2, h3, h4, h5, h6, h7, h8, h9]

/-- C2 witness: the empty (malformed) version string matches no rule and
yields the default "3.2.2". -/
theorem findFPCVersion_default_witness :
    findFPCVersion "" = "3.2.2" :=
  findFPCVersion_default "" (by decide) (by decide) (by decide) (by decide)
    (by decide) (by decide) (by decide) (by decide) (by decide)

/-- A concrete environment used by the witness instantiations. -/
def envW : Env :=
  { cacheHit := true, lazLibExists := true, lazAppExists := true, tempDir := "/tmp",
    fpcsrcPkgPath := "/Volumes/fpcsrc/a.pkg", fpcPkgPath := "/Volumes/fpc/b.pkg",
    lazPkgPath := "/Volumes/lazarus/c.pkg" }

/-- C3: with the alias version "dist", `installLazarus` on linux runs
apt update followed by apt install of the repository lazarus package and
issues no download; on win32 it rewrites the version to the fixed stable
version "4.2" and performs exactly one versioned download; on every
other platform it fails with the platform-not-supported error. -/
theorem dist_alias (platform arch : String) (wc : Bool) (env : Env) :
    (platform = "linux" →
      installLazarus (Lazarus.mkState "dist" wc platform arch) env =
        ([Event.execCmd "sudo apt update",
          Event.execCmd "sudo apt install -y lazarus --no-install-recommends"], none)) ∧
    (platform = "win32" →
      installLazarus (Lazarus.mkState "dist" wc platform arch) env =
        downloadLazarus (Lazarus.mkState "4.2" wc platform arch) env ∧
      downloadURLs (installLazarus (Lazarus.mkState "dist" wc platform arch) env).1 =
        [getPackageURL (Lazarus.mkState "4.2" wc platform arch) .laz]) ∧
    (platform ≠ "linux" → platform ≠ "win32" →
      installLazarus (Lazarus.mkState "dist" wc platform arch) env =
        ([], some ("getLazarus - Platform not supported: " ++ platform))) := by
  refine ⟨?_, ?_, ?_⟩
  · rintro rfl
    simp [installLazarus, Lazarus.mkState]
  · rintro rfl
    constructor
    · simp [installLazarus, Lazarus.mkState, setVersion, StableVersion]
    · simp [installLazarus, Lazarus.mkState, setVersion, StableVersion, downloadLazarus,
        downloadURLs]
  · intro h1 h2
    simp [installLazarus, Lazarus.mkState, h1, h2]

/-- C3 witness: the three platform cases of the "dist" alias, each at a
concrete input. -/
theorem dist_alias_witness :
    installLazarus (Lazarus.mkState "dist" true "linux" "x64") envW =
      ([Event.execCmd "sudo apt update",
        Event.execCmd "sudo apt install -y lazarus --no-install-recommends"], none) ∧
    installLazarus (Lazarus.mkState "dist" true "win32" "x64") envW =
      downloadLazarus (Lazarus.mkState "4.2" true "win32" "x64") envW ∧
    installLazarus (Lazarus.mkState "dist" true "darwin" "x64") envW =
      ([], some ("getLazarus - Platform not supported: " ++ "darwin")) :=
  ⟨(dist_alias "linux" "x64" true envW).1 rfl,
   ((dist_alias "win32" "x64" true envW).2.1 rfl).1,
   (dist_alias "darwin" "x64" true envW).2.2 (by decide) (by decide)⟩

/-- C4: on darwin, every requested version that starts with "1.", or
that starts with "2.0" and is not exactly "2.0.8", makes
`installLazarus` fail with the unsupported-configuration error before
any download or install action (its trace is empty). -/
theorem darwin_unsupported (ver arch : String) (wc : Bool) (env : Env)
    (h : ((jsStartsWith ver "2.0" && !(ver == "2.0.8")) || jsStartsWith ver "1.") = true) :
    installLazarus (Lazarus.mkState ver wc "darwin" arch) env =
      ([], some "GitHub runners do not support Lazarus below 2.0.8 on macos") := by
  have hd : ver ≠ "dist" := by
    rintro rfl
    exact absurd h (by decide)
  have hs : ver ≠ "stable" := by
    rintro rfl
    exact absurd h (by decide)
  simp [installLazarus, Lazarus.mkState, hd, hs, h]

/-- C4 witness: macOS with version "1.5" is rejected with the documented
message and an empty action trace. -/
theorem darwin_unsupported_witness :
    ((jsStartsWith "1.5" "2.0" && !(("1.5" : String) == "2.0.8")) ||
      jsStartsWith "1.5" "1.") = true ∧
    installLazarus (Lazarus.mkState "1.5" false "darwin" "x64") envW =
      ([], some "GitHub runners do not support Lazarus below 2.0.8 on macos") :=
  ⟨by decide, darwin_unsupported "1.5" "x64" false envW (by decide)⟩

@[simp] lemma downloadEvents_nil : downloadEvents [] = [] := rfl

@[simp] lemma downloadEvents_append (a b : List Event) :
    downloadEvents (a ++ b) = downloadEvents a ++ downloadEvents b := by
  simp [downloadEvents]

@[simp] lemma downloadEvents_cons_exec (c : String) (l : List Event) :
    downloadEvents (Event.execCmd c :: l) = downloadEvents l := by
  simp [downloadEvents, isDownload]

@[simp] lemma downloadEvents_cons_restore (k : String) (l : List Event) :
    downloadEvents (Event.restoreCall k :: l) = downloadEvents l := by
  simp [downloadEvents, isDownload]

@[simp] lemma downloadEvents_cons_addPath (d : String) (l : List Event) :
    downloadEvents (Event.addPath d :: l) = downloadEvents l := by
  simp [downloadEvents, isDownload]

@[simp] lemma downloadEvents_cons_exportVar (n v : String) (l : List Event) :
    downloadEvents (Event.exportVar n v :: l) = downloadEvents l := by
  simp [downloadEvents, isDownload]

@[simp] lemma downloadEvents_cons_invoke (a b c d : String) (l : List Event) :
    downloadEvents (Event.invokeDownload a b c d :: l) = downloadEvents l := by
  simp [downloadEvents, isDownload]

@[simp] lemma downloadEvents_cons_download (u d : String) (l : List Event) :
    downloadEvents (Event.download u d :: l) = Event.download u d :: downloadEvents l := by
  simp [downloadEvents, isDownload]

@[simp] lemma downloadURLs_nil : downloadURLs [] = [] := rfl

@[simp] lemma downloadURLs_append (a b : List Event) :
    downloadURLs (a ++ b) = downloadURLs a ++ downloadURLs b := by
  simp [downloadURLs]

@[simp] lemma downloadURLs_cons_exec (c : String) (l : List Event) :
    downloadURLs (Event.execCmd c :: l) = downloadURLs l := by
  simp [downloadURLs]

@[simp] lemma downloadURLs_cons_restore (k : String) (l : List Event) :
    downloadURLs (Event.restoreCall k :: l) = downloadURLs l := by
  simp [downloadURLs]

@[simp] lemma downloadURLs_cons_addPath (d : String) (l : List Event) :
    downloadURLs (Event.addPath d :: l) = downloadURLs l := by
  simp [downloadURLs]

@[simp] lemma downloadURLs_cons_exportVar (n v : String) (l : List Event) :
    downloadURLs (Event.exportVar n v :: l) = downloadURLs l := by
  simp [downloadURLs]

@[simp] lemma downloadURLs_cons_invoke (a b c d : String) (l : List Event) :
    downloadURLs (Event.invokeDownload a b c d :: l) = downloadURLs l := by
  simp [downloadURLs]

@[simp] lemma downloadURLs_cons_download (u d : String) (l : List Event) :
    downloadURLs (Event.download u d :: l) = u :: downloadURLs l := by
  simp [downloadURLs]

lemma downloadURLs_linuxPkgStep (r : Bool) (t u f : String) :
    downloadURLs (linuxPkgStep r t u f) = if r then [] else [u] := by
  cases r <;> simp [linuxPkgStep]

lemma downloadURLs_darwinPkgStep (r : Bool) (t u d p q : String) :
    downloadURLs (darwinPkgStep r t u d p q) = if r then [] else [u] := by
  cases r <;> simp only [darwinPkgStep] <;> split_ifs <;> simp_all

lemma downloadEvents_linuxPkgStep_restored (t u f : String) :
    downloadEvents (linuxPkgStep true t u f) = [] := by
  simp [linuxPkgStep]

lemma downloadEvents_darwinPkgStep_restored (t u d p q : String) :
    downloadEvents (darwinPkgStep true t u d p q) = [] := by
  simp only [darwinPkgStep]
  split_ifs <;> simp_all

lemma downloadURLs_symlinkFix (env : Env) :
    downloadURLs (darwinSymlinkFix env).1 = [] := by
  unfold darwinSymlinkFix
  split_ifs <;> simp

lemma downloadEvents_symlinkFix (env : Env) :
    downloadEvents (darwinSymlinkFix env).1 = [] := by
  unfold darwinSymlinkFix
  split_ifs <;> simp

/-- C5: the cache gate of `_downloadLazarus`. When the restore succeeds
(which requires a non-win32 platform) no download call is issued; when
it fails or caching is disabled (`cacheRestore` is false), exactly one
download call is issued per required artifact: the single installer on
win32, and one each for fpcsrc, fpc and laz on linux and darwin. -/
theorem cache_gate (s : LazState) (env : Env) :
    (s.platform ≠ "win32" → cacheRestore s.cacheEnabled env.cacheHit = true →
      downloadEvents (downloadLazarus s env).1 = []) ∧
    (s.platform = "win32" →
      downloadURLs (downloadLazarus s env).1 = [getPackageURL s .laz]) ∧
    ((s.platform = "linux" ∨ s.platform = "darwin") →
      cacheRestore s.cacheEnabled env.cacheHit = false →
      downloadURLs (downloadLazarus s env).1 =
        [getPackageURL s .fpcsrc, getPackageURL s .fpc, getPackageURL s .laz]) := by
  refine ⟨?_, ?_, ?_⟩
  · intro h hr
    by_cases hl : s.platform = "linux"
    · simp [downloadLazarus, h, hl, hr, downloadEvents_linuxPkgStep_restored]
    · by_cases hdw : s.platform = "darwin"
      · simp [downloadLazarus, h, hdw, hr,
          downloadEvents_darwinPkgStep_restored, downloadEvents_symlinkFix]
      · simp [downloadLazarus, h, hl, hdw]
  · intro h
    simp [downloadLazarus, h]
  · intro h hr
    rcases h with h | h <;>
      simp [downloadLazarus, h, hr, downloadURLs_linuxPkgStep,
        downloadURLs_darwinPkgStep, downloadURLs_symlinkFix]

/-- C5 witness: the cache gate at concrete runs — a linux run with a
cache hit downloads nothing; a win32 run downloads the single installer;
a linux run with caching disabled downloads all three artifacts. -/
theorem cache_gate_witness :
    downloadEvents (downloadLazarus (Lazarus.mkState "3.0" true "linux" "x64") envW).1 = [] ∧
    downloadURLs (downloadLazarus (Lazarus.mkState "3.0" true "win32" "x64") envW).1 =
      [getPackageURL (Lazarus.mkState "3.0" true "win32" "x64") .laz] ∧
    downloadURLs (downloadLazarus (Lazarus.mkState "3.0" false "linux" "x64") envW).1 =
      [getPackageURL (Lazarus.mkState "3.0" false "linux" "x64") .fpcsrc,
       getPackageURL (Lazarus.mkState "3.0" false "linux" "x64") .fpc,
       getPackageURL (Lazarus.mkState "3.0" false "linux" "x64") .laz] :=
  ⟨(cache_gate (Lazarus.mkState "3.0" true "linux" "x64") envW).1 (by decide) (by decide),
   (cache_gate (Lazarus.mkState "3.0" true "win32" "x64") envW).2.1 (by decide),
   (cache_gate (Lazarus.mkState "3.0" false "linux" "x64") envW).2.2 (by decide) (by decide)⟩

/-- C7: the lazbuild fix-up ending every darwin `_downloadLazarus` run:
if /Library/Lazarus/lazbuild exists nothing is changed; otherwise if
/Applications/Lazarus/lazbuild exists the /usr/local/bin/lazbuild link
is removed and re-created; otherwise the run fails with the
missing-artifact error. The fix-up's outcome is the run's outcome, its
actions are the final actions of the run, and a failure ends the trace
with no retry. -/
theorem darwin_symlink_rule (s : LazState) (env : Env) (hp : s.platform = "darwin") :
    (env.lazLibExists = true → darwinSymlinkFix env = ([], none)) ∧
    (env.lazLibExists = false → env.lazAppExists = true →
      darwinSymlinkFix env =
        ([Event.execCmd "rm -rf /usr/local/bin/lazbuild",
          Event.execCmd "ln -s /Applications/Lazarus/lazbuild /usr/local/bin/lazbuild"],
         none)) ∧
    (env.lazLibExists = false → env.lazAppExists = false →
      darwinSymlinkFix env =
        ([], some "Could not find lazbuild in /Library/Lazarus/lazbuild or /Applications/Lazarus/lazbuild")) ∧
    (downloadLazarus s env).2 = (darwinSymlinkFix env).2 ∧
    (∃ pre, (downloadLazarus s env).1 = pre ++ (darwinSymlinkFix env).1) := by
  refine ⟨?_, ?_, ?_, ?_, ?_⟩
  · intro h
    simp [darwinSymlinkFix, h]
  · intro h1 h2
    simp [darwinSymlinkFix, h1, h2]
  · intro h1 h2
    simp [darwinSymlinkFix, h1, h2]
  · simp [downloadLazarus, hp]
  · refine ⟨Event.invokeDownload s.version s.arch s.platform s.cacheKey ::
      Event.restoreCall s.cacheKey ::
      (darwinPkgStep (cacheRestore s.cacheEnabled env.cacheHit) env.tempDir
          (getPackageURL s Pkg.fpcsrc) "fpcsrc.dmg" "fpcsrc.pkg" env.fpcsrcPkgPath ++
        darwinPkgStep (cacheRestore s.cacheEnabled env.cacheHit) env.tempDir
          (getPackageURL s Pkg.fpc) "fpc.dmg" "fpc.pkg" env.fpcPkgPath ++
        darwinPkgStep (cacheRestore s.cacheEnabled env.cacheHit) env.tempDir
          (getPackageURL s Pkg.laz) "lazarus.dmg" "lazarus.pkg" env.lazPkgPath), ?_⟩
    simp [downloadLazarus, hp]


/-- C9: on win32, `Cache.restore` is never invoked by
`_downloadLazarus`, so two win32 runs that differ only in the cache flag
perform identical steps, and the installer is downloaded on every
win32 run. -/
theorem win32_cache_blind (ver arch : String) (c1 c2 : Bool) (env : Env) :
    installLazarus (Lazarus.mkState ver c1 "win32" arch) env =
      installLazarus (Lazarus.mkState ver c2 "win32" arch) env ∧
    (∀ k, Event.restoreCall k ∉ (installLazarus (Lazarus.mkState ver c1 "win32" arch) env).1) ∧
    (downloadEvents (installLazarus (Lazarus.mkState ver c1 "win32" arch) env).1).length = 1 := by
  by_cases hd : ver = "dist" <;> by_cases hs : ver = "stable" <;>
    refine ⟨?_, fun k => ?_, ?_⟩ <;>
    simp [installLazarus, Lazarus.mkState, setVersion, StableVersion, downloadLazarus,
      getPackageURL, hd, hs]

/-- C9 witness: the two cache-flag runs coincide at a concrete win32
input. -/
theorem win32_cache_blind_witness :
    installLazarus (Lazarus.mkState "3.0" true "win32" "x64") envW =
      installLazarus (Lazarus.mkState "3.0" false "win32" "x64") envW :=
  (win32_cache_blind "3.0" "x64" true false envW).1

/-- Environment where only /Applications/Lazarus/lazbuild exists. -/
def envW2 : Env := { envW with lazLibExists := false }

/-- Environment where neither lazbuild candidate exists. -/
def envW3 : Env := { envW with lazLibExists := false, lazAppExists := false }

/-- C7 witness: the three symlink outcomes at concrete environments. -/
theorem darwin_symlink_rule_witness :
    darwinSymlinkFix envW = ([], none) ∧
    darwinSymlinkFix envW2 =
      ([Event.execCmd "rm -rf /usr/local/bin/lazbuild",
        Event.execCmd "ln -s /Applications/Lazarus/lazbuild /usr/local/bin/lazbuild"], none) ∧
    darwinSymlinkFix envW3 =
      ([], some "Could not find lazbuild in /Library/Lazarus/lazbuild or /Applications/Lazarus/lazbuild") :=
  ⟨(darwin_symlink_rule (Lazarus.mkState "2.2.0" true "darwin" "x64") envW rfl).1 rfl,
   (darwin_symlink_rule (Lazarus.mkState "2.2.0" true "darwin" "x64") envW2 rfl).2.1 rfl rfl,
   (darwin_symlink_rule (Lazarus.mkState "2.2.0" true "darwin" "x64") envW3 rfl).2.2.1 rfl rfl⟩

/-- C6: on darwin, `createLazarusFileName` returns the hardcoded
artifact set exactly when the version is "2.0.8"; every other version
gets filenames built by concatenation from the version, the resolved
compiler version and its suffix. -/
theorem darwin_filename_rule (ver arch : String) :
    createLazarusFileName "2.0.8" "darwin" arch =
      .files { laz := "LazarusIDE-2.0.8-macos-x86_64.pkg",
               fpc := "fpc-3.0.4-macos-x86_64-laz-2.dmg",
               fpcsrc := "fpc-src-3.0.4-laz.pkg" } ∧
    (ver ≠ "2.0.8" → createLazarusFileName ver "darwin" arch =
      .files { laz := "Lazarus-" ++ ver ++ "-macosx-darwin.pkg",
               fpc := "fpc-" ++ findFPCVersion ver ++ ".intel" ++
                 (if jsStartsWith (findFPCVersion ver) "2.0" then "" else "arm64") ++
                 "-macosx.dmg",
               fpcsrc := "fpc-src-" ++ findFPCVersion ver ++ "-" ++
                 darwinSuffix (findFPCVersion ver) ++ "-laz." ++
                 (if jsStartsWith ver "2.0" then "pkg" else "dmg") }) ∧
    (ver ≠ "2.0.8" → createLazarusFileName ver "darwin" arch ≠
      .files { laz := "LazarusIDE-2.0.8-macos-x86_64.pkg",
               fpc := "fpc-3.0.4-macos-x86_64-laz-2.dmg",
               fpcsrc := "fpc-src-3.0.4-laz.pkg" }) := by
  have key : ver ≠ "2.0.8" → createLazarusFileName ver "darwin" arch =
      .files { laz := "Lazarus-" ++ ver ++ "-macosx-darwin.pkg",
               fpc := "fpc-" ++ findFPCVersion ver ++ ".intel" ++
                 (if jsStartsWith (findFPCVersion ver) "2.0" then "" else "arm64") ++
                 "-macosx.dmg",
               fpcsrc := "fpc-src-" ++ findFPCVersion ver ++ "-" ++
                 darwinSuffix (findFPCVersion ver) ++ "-laz." ++
                 (if jsStartsWith ver "2.0" then "pkg" else "dmg") } := by
    intro h
    have hw : jsStartsWith "darwin" "win" = false := by decide
    simp [createLazarusFileName, h, hw, String.append_assoc]
  refine ⟨by rfl, key, ?_⟩
  intro h heq
  rw [key h] at heq
  simp only [LazFileName.files.injEq, ArtifactSet.mk.injEq] at heq
  have hlaz : "Lazarus-" ++ ver ++ "-macosx-darwin.pkg" =
      "LazarusIDE-2.0.8-macos-x86_64.pkg" := heq.1
  have hq := congrArg (fun s : String => s.data.get? 7) hlaz
  have e1 : ("Lazarus-" : String).data =
      'L' :: 'a' :: 'z' :: 'a' :: 'r' :: 'u' :: 's' :: '-' :: [] := rfl
  have e2 : ("LazarusIDE-2.0.8-macos-x86_64.pkg" : String).data.get? 7 = some 'I' := rfl
  simp only [String.data_append, e1, e2, List.cons_append, List.get?] at hq
  exact absurd hq (by decide)

/-- C6 witness: a darwin version other than "2.0.8" gets concatenated
filenames. -/
theorem darwin_filename_rule_witness :
    ("2.2.0" : String) ≠ "2.0.8" ∧
    createLazarusFileName "2.2.0" "darwin" "x64" =
      .files { laz := "Lazarus-" ++ "2.2.0" ++ "-macosx-darwin.pkg",
               fpc := "fpc-" ++ findFPCVersion "2.2.0" ++ ".intel" ++
                 (if jsStartsWith (findFPCVersion "2.2.0") "2.0" then "" else "arm64") ++
                 "-macosx.dmg",
               fpcsrc := "fpc-src-" ++ findFPCVersion "2.2.0" ++ "-" ++
                 darwinSuffix (findFPCVersion "2.2.0") ++ "-laz." ++
                 (if jsStartsWith "2.2.0" "2.0" then "pkg" else "dmg") } :=
  ⟨by decide, (darwin_filename_rule "2.2.0" "x64").2.1 (by decide)⟩

lemma splitDash_append_dash (l₁ l₂ : List Char) (h : '-' ∉ l₁) :
    splitDash (l₁ ++ '-' :: l₂) = l₁ :: splitDash l₂ := by
  induction l₁ with
  | nil => simp [splitDash]
  | cons c cs ih =>
    simp only [List.mem_cons, not_or] at h
    obtain ⟨h1, h2⟩ := h
    simp [splitDash, ih h2, Ne.symm h1]

lemma findFPCVersion_no_dash (v : String) : '-' ∉ (findFPCVersion v).data := by
  unfold findFPCVersion
  split_ifs <;> decide

lemma winName_part (ver fpcver w : String)
    (h1 : '-' ∉ ver.data) (h2 : '-' ∉ fpcver.data) :
    (jsSplitDash ("lazarus-" ++ ver ++ "-fpc-" ++ fpcver ++ "-" ++ w ++ ".exe")).getD 3 "" =
      fpcver := by
  have e1 : ("lazarus-" : String).data =
      'l' :: 'a' :: 'z' :: 'a' :: 'r' :: 'u' :: 's' :: '-' :: [] := rfl
  have e2 : ("-fpc-" : String).data = '-' :: 'f' :: 'p' :: 'c' :: '-' :: [] := rfl
  have e3 : ("-" : String).data = '-' :: [] := rfl
  have hdata : ("lazarus-" ++ ver ++ "-fpc-" ++ fpcver ++ "-" ++ w ++ ".exe").data =
      ('l' :: 'a' :: 'z' :: 'a' :: 'r' :: 'u' :: 's' :: []) ++ '-' ::
        (ver.data ++ '-' :: (('f' :: 'p' :: 'c' :: []) ++ '-' ::
          (fpcver.data ++ '-' :: (w.data ++ (".exe" : String).data)))) := by
    simp [String.data_append, e1, e2, e3]
  rw [jsSplitDash, hdata, splitDash_append_dash _ _ (by decide),
    splitDash_append_dash _ _ h1, splitDash_append_dash _ _ (by decide),
    splitDash_append_dash _ _ h2]
  rfl

/-- C8: after a win32 run of `_downloadLazarus`, the Lazarus directory
and the fpc binary directory are added to PATH and FPCDIR is exported as
lazarusDir/fpc/v, where v is the fourth dash-separated component of the
installer filename; for every requested version containing no dash, v
equals `findFPCVersion` of the version. -/
theorem win32_env_setup (s : LazState) (env : Env) (hp : s.platform = "win32")
    (hnd : '-' ∉ s.version.data) :
    (downloadLazarus s env).2 = none ∧
    Event.addPath (pathJoin env.tempDir "lazarus") ∈ (downloadLazarus s env).1 ∧
    Event.addPath (pathJoin
        (pathJoin (pathJoin (pathJoin (pathJoin env.tempDir "lazarus") "fpc")
          (findFPCVersion s.version)) "bin")
        ("x86_64-" ++ (if s.arch == "x64" then "win64" else "win32"))) ∈
      (downloadLazarus s env).1 ∧
    Event.exportVar "FPCDIR"
        (pathJoin (pathJoin (pathJoin env.tempDir "lazarus") "fpc")
          (findFPCVersion s.version)) ∈
      (downloadLazarus s env).1 := by
  have hws : jsStartsWith "win32" "win" = true := by decide
  have hname : (createLazarusFileName s.version s.platform s.arch).asWinString =
      "lazarus-" ++ s.version ++ "-fpc-" ++ findFPCVersion s.version ++ "-" ++
        (if s.arch == "x64" then "win64" else "win32") ++ ".exe" := by
    rw [hp]
    simp [createLazarusFileName, LazFileName.asWinString, hws]
  have hv : (jsSplitDash ((createLazarusFileName s.version s.platform s.arch).asWinString)).getD
      3 "" = findFPCVersion s.version := by
    rw [hname]
    exact winName_part s.version (findFPCVersion s.version) _ hnd
      (findFPCVersion_no_dash s.version)
  rw [hp] at hv
  simp only [List.getD_eq_getElem?_getD] at hv
  refine ⟨?_, ?_, ?_, ?_⟩ <;> simp [downloadLazarus, hp, hv]

/-- C8 witness: the PATH and FPCDIR effects of a concrete win32 run. -/
theorem win32_env_setup_witness :
    '-' ∉ ("3.0" : String).data ∧
    Event.exportVar "FPCDIR"
        (pathJoin (pathJoin (pathJoin envW.tempDir "lazarus") "fpc") (findFPCVersion "3.0")) ∈
      (downloadLazarus (Lazarus.mkState "3.0" true "win32" "x64") envW).1 :=
  ⟨by decide,
   (win32_env_setup (Lazarus.mkState "3.0" true "win32" "x64") envW rfl (by decide)).2.2.2⟩

lemma invoke_not_mem_linuxPkgStep (r : Bool) (t u f v a p k : String) :
    Event.invokeDownload v a p k ∉ linuxPkgStep r t u f := by
  cases r <;> simp [linuxPkgStep]

lemma invoke_not_mem_darwinPkgStep (r : Bool) (t u d pn q v a p k : String) :
    Event.invokeDownload v a p k ∉ darwinPkgStep r t u d pn q := by
  cases r <;> simp only [darwinPkgStep] <;> split_ifs <;> simp

lemma invoke_not_mem_symlinkFix (env : Env) (v a p k : String) :
    Event.invokeDownload v a p k ∉ (darwinSymlinkFix env).1 := by
  unfold darwinSymlinkFix
  split_ifs <;> simp

lemma invoke_mem_downloadLazarus (s : LazState) (env : Env) (v a p k : String)
    (h : Event.invokeDownload v a p k ∈ (downloadLazarus s env).1) :
    v = s.version ∧ a = s.arch ∧ p = s.platform ∧ k = s.cacheKey := by
  by_cases h1 : s.platform = "win32"
  · rw [h1]
    simp [downloadLazarus, h1] at h
    tauto
  · by_cases h2 : s.platform = "linux"
    · rw [h2]
      simp [downloadLazarus, h1, h2, invoke_not_mem_linuxPkgStep] at h
      tauto
    · by_cases h3 : s.platform = "darwin"
      · rw [h3]
        simp [downloadLazarus, h1, h2, h3, invoke_not_mem_darwinPkgStep,
          invoke_not_mem_symlinkFix] at h
        tauto
      · simp [downloadLazarus, h1, h2, h3] at h
        tauto

/-- C10: whenever `_downloadLazarus` is invoked during a run started
from the constructor, the cache key equals version-arch-platform for the
then-current version: the constructor establishes the equation and both
alias paths that rewrite the version also rewrite the key. -/
theorem cache_key_invariant (ver : String) (wc : Bool) (platform arch : String) (env : Env) :
    ∀ v a p k, Event.invokeDownload v a p k ∈
        (installLazarus (Lazarus.mkState ver wc platform arch) env).1 →
      k = v ++ "-" ++ a ++ "-" ++ p := by
  intro v a p k h
  by_cases hd : ver = "dist"
  · subst hd
    by_cases hl : platform = "linux"
    · subst hl
      simp [installLazarus, Lazarus.mkState] at h
    · by_cases hw : platform = "win32"
      · subst hw
        rw [show installLazarus (Lazarus.mkState "dist" wc "win32" arch) env =
            downloadLazarus (Lazarus.mkState "4.2" wc "win32" arch) env from by
          simp [installLazarus, Lazarus.mkState, setVersion, StableVersion]] at h
        obtain ⟨rfl, rfl, rfl, rfl⟩ := invoke_mem_downloadLazarus _ env v a p k h
        simp [Lazarus.mkState]
      · simp [installLazarus, Lazarus.mkState, hl, hw] at h
  · by_cases hs : ver = "stable"
    · subst hs
      rw [show installLazarus (Lazarus.mkState "stable" wc platform arch) env =
          downloadLazarus (Lazarus.mkState "4.2" wc platform arch) env from by
        simp [installLazarus, Lazarus.mkState, setVersion, StableVersion]] at h
      obtain ⟨rfl, rfl, rfl, rfl⟩ := invoke_mem_downloadLazarus _ env v a p k h
      simp [Lazarus.mkState]
    · by_cases hc : (platform == "darwin" &&
          ((jsStartsWith ver "2.0" && !(ver == "2.0.8")) || jsStartsWith ver "1.")) = true
      · simp [installLazarus, Lazarus.mkState, hd, hs, hc] at h
      · rw [show installLazarus (Lazarus.mkState ver wc platform arch) env =
            downloadLazarus (Lazarus.mkState ver wc platform arch) env from by
          simp only [installLazarus, Lazarus.mkState]
          rw [if_neg (by simp [hd]), if_neg (by simp [hs]), if_neg (by simp [hc])]] at h
        obtain ⟨rfl, rfl, rfl, rfl⟩ := invoke_mem_downloadLazarus _ env v a p k h
        simp [Lazarus.mkState]

/-- C10 witness: the invariant at the head invocation of a concrete
linux run. -/
theorem cache_key_invariant_witness :
    Event.invokeDownload "3.0" "x64" "linux" ("3.0" ++ "-" ++ "x64" ++ "-" ++ "linux") ∈
      (installLazarus (Lazarus.mkState "3.0" true "linux" "x64") envW).1 ∧
    ("3.0" ++ "-" ++ "x64" ++ "-" ++ "linux" : String) =
      "3.0" ++ "-" ++ "x64" ++ "-" ++ "linux" :=
  ⟨by simp [installLazarus, Lazarus.mkState, downloadLazarus],
   cache_key_invariant "3.0" true "linux" "x64" envW "3.0" "x64" "linux"
     ("3.0" ++ "-" ++ "x64" ++ "-" ++ "linux")
     (by simp [installLazarus, Lazarus.mkState, downloadLazarus])⟩

end SetupLazarus
